import Mathlib

/-!
Verification of the stop-pair / schedule generation logic of
`GenerateStopPairs.py` ("Add GTFS to a Network Dataset").

The Python source is embedded shallowly:

* SQL rows become Lean structures over `String`/`Int` (GTFS time offsets are
  integer seconds from service-day start).
* The mutable global `linefeature_dict` (the Edge Registry, a dict whose keys
  are the composite strings `"from , to , route_type"`) is threaded
  explicitly as a `List String` of registered keys; Python dict insertion of
  a key is `registerKey` (a no-op if the key is already present).
* The per-trip processing functions `Make_StopsTimes_Rows`,
  `Make_Frequency_Rows` and `Make_Rows_For_Trip` are translated loop-by-loop,
  returning the produced schedule rows together with the updated registry.
* Python's `range(a, b, step)` is `pyRange`; its length for a positive step is
  `max 0 ((b - a + step - 1) / step)` exactly as in CPython.
-/

/-- One row of the `stop_times` query `SELECT stop_id, arrival_time,
departure_time ... ORDER BY stop_sequence` for a single trip. -/
structure StopTimeRow where
  stop_id : String
  arrival_time : Int
  departure_time : Int
deriving DecidableEq

/-- One row inserted into the `schedules` table:
`(SourceOIDkey, start_time, end_time, trip_id)`. -/
structure ScheduleRow where
  SourceOIDKey : String
  start_time : Int
  end_time : Int
  trip_id : String
deriving DecidableEq

/-- One frequency window `[start_time, end_time, headway_secs]` as stored in
`frequencies_dict`. -/
structure FreqWindow where
  start_time : Int
  end_time : Int
  headway_secs : Int
deriving DecidableEq

/-- One row of the `frequencies` table query
`SELECT trip_id, start_time, end_time, headway_secs FROM frequencies`. -/
structure FreqRow where
  trip_id : String
  start_time : Int
  end_time : Int
  headway_secs : Int
deriving DecidableEq

def dummyStopTime : StopTimeRow := ⟨"", 0, 0⟩

def dummySchedule : ScheduleRow := ⟨"", 0, 0, ""⟩

/-- `SourceOIDkey = "%s , %s , %s" % (start_stop, end_stop, route_type)`. -/
def makeSourceOIDkey (start_stop end_stop route_type : String) : String :=
  start_stop ++ " , " ++ end_stop ++ " , " ++ route_type

/-- `linefeature_dict[SourceOIDkey] = True`: adding a key to a Python dict
keeps a single entry per key, so the registry is a duplicate-free list. -/
def registerKey (lfd : List String) (k : String) : List String :=
  if k ∈ lfd then lfd else lfd ++ [k]

/-- The loop body of `Make_StopsTimes_Rows` (`for st in stop_times[1:]`),
carrying `previous_stop` and the running `start_time` and returning the
produced schedule rows together with the updated `linefeature_dict`. -/
def Make_StopsTimes_Rows_loop (trip_id route_type : String) (previous_stop : String)
    (start_time : Int) (rest : List StopTimeRow) (lfd : List String) :
    List ScheduleRow × List String :=
  match rest with
  | [] => ([], lfd)
  | st :: tail =>
    let key := makeSourceOIDkey previous_stop st.stop_id route_type
    let next := Make_StopsTimes_Rows_loop trip_id route_type st.stop_id
      st.departure_time tail (registerKey lfd key)
    (⟨key, start_time, st.arrival_time, trip_id⟩ :: next.1, next.2)

/-- `Make_StopsTimes_Rows(trip_id, stop_times)`: the static strategy.  The
route type is looked up in `trip_routetype_dict` (here the function
`tdict`). -/
def Make_StopsTimes_Rows (tdict : String → String) (trip_id : String)
    (stop_times : List StopTimeRow) (lfd : List String) :
    List ScheduleRow × List String :=
  if stop_times.length < 2 then ([], lfd)  -- no complete stop-stop segments
  else
    match stop_times with
    | [] => ([], lfd)
    | first :: rest =>
      Make_StopsTimes_Rows_loop trip_id (tdict trip_id) first.stop_id
        first.departure_time rest lfd

example :
    (Make_StopsTimes_Rows (fun _ => "3") "T1"
      [⟨"A", 0, 0⟩, ⟨"B", 5, 10⟩, ⟨"C", 15, 15⟩] []).1
      = [⟨"A , B , 3", 0, 5, "T1"⟩, ⟨"B , C , 3", 10, 15, "T1"⟩] := by decide

example :
    (Make_StopsTimes_Rows (fun _ => "3") "T1"
      [⟨"A", 0, 0⟩, ⟨"B", 5, 10⟩, ⟨"C", 15, 15⟩] []).2
      = ["A , B , 3", "B , C , 3"] := by decide

/-- Number of elements of Python's `range(a, b, step)` for a positive step:
`max 0 (ceil ((b - a) / step))`, which CPython computes as the floor division
`(b - a + step - 1) // step` clamped at 0.  `Int./` is Euclidean division, so
for a positive step it agrees with Python's floor division. -/
def pyRangeLen (a b step : Int) : Nat := ((b - a + step - 1) / step).toNat

/-- Python's `range(a, b, step)` (for the positive steps used by the tool). -/
def pyRange (a b step : Int) : List Int :=
  (List.range (pyRangeLen a b step)).map (fun (k : Nat) => a + step * (k : Int))

example : pyRange 0 1200 600 = [0, 600] := by decide
example : pyRange 0 700 600 = [0, 600] := by decide
example : pyRange 100 100 60 = [] := by decide
example : pyRange 0 1800 600 = [0, 600, 1200] := by decide

/-- The loop body of `Make_Frequency_Rows` (`for st in stop_times[1:]`).
`first_trip_initial_start_time` is the departure offset of the trip's first
stop; window offsets are integer seconds (GTFS times are whole seconds), so
the source's `int(round(x, 0))` on a window boundary is the identity. -/
def Make_Frequency_Rows_loop (trip_id route_type : String)
    (windows : List FreqWindow) (first_trip_initial_start_time : Int)
    (previous_stop : String) (start_time : Int)
    (rest : List StopTimeRow) (lfd : List String) :
    List ScheduleRow × List String :=
  match rest with
  | [] => ([], lfd)
  | st :: tail =>
    let key := makeSourceOIDkey previous_stop st.stop_id route_type
    let start_time_along_trip := start_time - first_trip_initial_start_time
    let end_time_along_trip := st.arrival_time - first_trip_initial_start_time
    let here := windows.flatMap (fun w =>
      (pyRange w.start_time w.end_time w.headway_secs).map (fun i =>
        (⟨key, i + start_time_along_trip, i + end_time_along_trip, trip_id⟩ :
          ScheduleRow)))
    let next := Make_Frequency_Rows_loop trip_id route_type windows
      first_trip_initial_start_time st.stop_id st.departure_time tail
      (registerKey lfd key)
    (here ++ next.1, next.2)

/-- `Make_Frequency_Rows(trip_id, stop_times)`: the frequency strategy,
extrapolating each segment's relative offsets over every window of
`frequencies_dict[trip_id]` (here the argument `windows`). -/
def Make_Frequency_Rows (tdict : String → String) (trip_id : String)
    (windows : List FreqWindow) (stop_times : List StopTimeRow)
    (lfd : List String) : List ScheduleRow × List String :=
  if stop_times.length < 2 then ([], lfd)  -- no complete stop-stop segments
  else
    match stop_times with
    | [] => ([], lfd)
    | first :: rest =>
      Make_Frequency_Rows_loop trip_id (tdict trip_id) windows
        first.departure_time first.stop_id first.departure_time rest lfd

/-- The warning text emitted for a `frequencies.txt` record with
`headway_secs = 0` (the record is skipped, processing continues). -/
def zeroHeadwayWarning (trip_id : String) : String :=
  "Trip_id " ++ trip_id ++ " in your frequencies.txt file has a headway " ++
    "of 0 seconds. This is invalid, so trips with this id will not be " ++
    "included in your network."

/-- One iteration of the `for freq in c` loop building `frequencies_dict`:
the state is the dictionary (as a function from trip id to its window list;
a trip is *in* the dict iff its list is nonempty, since `setdefault(...,
[]).append` always leaves a nonempty list) plus the warnings recorded so
far. -/
def freqStep (acc : (String → List FreqWindow) × List String) (freq : FreqRow) :
    (String → List FreqWindow) × List String :=
  if freq.headway_secs = 0 then
    (acc.1, acc.2 ++ [zeroHeadwayWarning freq.trip_id])
  else
    (fun t => if t = freq.trip_id
        then acc.1 t ++ [⟨freq.start_time, freq.end_time, freq.headway_secs⟩]
        else acc.1 t,
     acc.2)

/-- Builds `frequencies_dict` (and the zero-headway warnings) from the rows
of the `frequencies` table. -/
def buildFrequenciesDict (freqs : List FreqRow) :
    (String → List FreqWindow) × List String :=
  freqs.foldl freqStep ((fun _ => []), [])

/-- `Make_Rows_For_Trip(trip_id)`: dispatches on `trip_id in
frequencies_dict` (membership in the Python dict is equivalent to the
window list being nonempty). -/
def Make_Rows_For_Trip (fdict : String → List FreqWindow)
    (tdict : String → String) (trip_id : String)
    (stop_time_data : List StopTimeRow) (lfd : List String) :
    List ScheduleRow × List String :=
  if fdict trip_id ≠ [] then
    Make_Frequency_Rows tdict trip_id (fdict trip_id) stop_time_data lfd
  else
    Make_StopsTimes_Rows tdict trip_id stop_time_data lfd

example :
    (Make_Rows_For_Trip (fun t => if t = "T2" then [⟨0, 1200, 600⟩] else [])
      (fun _ => "3") "T2" [⟨"A", 0, 0⟩, ⟨"B", 5, 5⟩] []).1
      = [⟨"A , B , 3", 0, 5, "T2"⟩, ⟨"A , B , 3", 600, 605, "T2"⟩] := by decide

/-- The duplicate-trip check `SELECT trip_id, count(*) FROM trips GROUP BY
trip_id HAVING count(*) > 1`: each distinct trip id that occurs more than
once, paired with its number of occurrences. -/
def tripDuplicates (trip_ids : List String) : List (String × Nat) :=
  trip_ids.dedup.filterMap (fun t =>
    if 1 < trip_ids.count t then some (t, trip_ids.count t) else none)

example : tripDuplicates ["a", "b", "a", "a"] = [("a", 3)] := by decide
example : tripDuplicates ["a", "b"] = [] := by decide

/-- `RouteDict`: `{route_id: route_type}` built by overwriting insertion
(last row wins, as for a Python dict). -/
def RouteDict (routes : List (String × String)) : String → Option String :=
  routes.foldl
    (fun acc route q => if q = route.1 then some route.2 else acc q)
    (fun _ => none)

/-- `trip_routetype_dict`: `{trip_id: route_type}`, with the sentinel `100`
for a trip whose `route_id` is missing from `routes` (a warning case). -/
def trip_routetype_dict (routes trips : List (String × String)) :
    String → String :=
  trips.foldl
    (fun acc trip q =>
      if q = trip.1 then
        match RouteDict routes trip.2 with
        | some rt => rt
        | none => "100"
      else acc q)
    (fun _ => "")

/-- The expansion phase: `itertools.chain.from_iterable(itertools.imap(
Make_Rows_For_Trip, trip_routetype_dict.keys()))` plus the shared
`linefeature_dict`, folded trip by trip. -/
def expandAll (fdict : String → List FreqWindow) (tdict : String → String)
    (stop_times : String → List StopTimeRow) (trip_ids : List String) :
    List ScheduleRow × List String :=
  trip_ids.foldl
    (fun acc t =>
      let res := Make_Rows_For_Trip fdict tdict t (stop_times t) acc.2
      (acc.1 ++ res.1, res.2))
    ([], [])

/-- The expansion-phase output: the `schedules` rows, the keys of
`linefeature_dict` (the Edge Registry) and the recorded warnings. -/
structure ExpansionResult where
  schedules : List ScheduleRow
  linefeature_keys : List String
  freq_warnings : List String
deriving DecidableEq

/-- The run up to the end of the expansion phase: the duplicate-trip check
aborts (raising `CustomError`, which ends the run with no output) before
anything else; otherwise `frequencies_dict` is built and every trip is
expanded.  The source iterates `trip_routetype_dict.keys()`; once the
duplicate check has passed those keys are exactly the trip ids of the
`trips` rows (Python dict order is arbitrary, so iterating the rows is an
admissible order). -/
def runPipeline (routes trips : List (String × String)) (freqs : List FreqRow)
    (stop_times : String → List StopTimeRow) :
    Except (List (String × Nat)) ExpansionResult :=
  let dups := tripDuplicates (trips.map Prod.fst)
  if dups = [] then
    let fd := buildFrequenciesDict freqs
    let er := expandAll fd.1 (trip_routetype_dict routes trips) stop_times
      (trips.map Prod.fst)
    Except.ok ⟨er.1, er.2, fd.2⟩
  else Except.error dups

example :
    runPipeline [("R", "3")] [("T1", "R")] []
      (fun t => if t = "T1" then [⟨"A", 0, 0⟩, ⟨"B", 5, 5⟩] else [])
      = Except.ok ⟨[⟨"A , B , 3", 0, 5, "T1"⟩], ["A , B , 3"], []⟩ := rfl

example :
    runPipeline [("R", "3")] [("T1", "R"), ("T1", "R")] [] (fun _ => [])
      = Except.error [("T1", 2)] := rfl

/-- A row of the `schedules` table once the `SourceOID` column is in play:
the four inserted fields plus `SourceOID` (`none` models SQL `NULL`,
i.e. a not-yet-resolved record). -/
structure ScheduleRecord where
  SourceOIDKey : String
  start_time : Int
  end_time : Int
  trip_id : String
  SourceOID : Option Int
deriving DecidableEq

def dummyRecord : ScheduleRecord := ⟨"", 0, 0, "", none⟩

/-- The SQL function `getSourceOID`:
`lambda v: linefeature_dict[v] if v in linefeature_dict else -1`.
After the geometry step `linefeature_dict` maps each surviving key to the
ObjectID of its line feature; here it is an association list. -/
def getSourceOID (lfd : List (String × Int)) (v : String) : Int :=
  match lfd.lookup v with
  | some oid => oid
  | none => -1

/-- Effect of `UPDATE schedules SET SourceOID = getSourceOID(SourceOIDKey)`
on a single row: only the `SourceOID` column changes. -/
def resolveRecord (lfd : List (String × Int)) (r : ScheduleRecord) :
    ScheduleRecord :=
  { r with SourceOID := some (getSourceOID lfd r.SourceOIDKey) }

/-- `UPDATE schedules SET SourceOID = getSourceOID(SourceOIDKey)`: a bulk
rewrite visiting every row once. -/
def resolveSchedules (lfd : List (String × Int)) (rs : List ScheduleRecord) :
    List ScheduleRecord :=
  rs.map (resolveRecord lfd)

example :
    resolveSchedules [("A , B , 3", 7)]
      [⟨"A , B , 3", 0, 5, "T1", none⟩, ⟨"X , Y , 3", 0, 5, "T1", none⟩]
      = [⟨"A , B , 3", 0, 5, "T1", some 7⟩,
         ⟨"X , Y , 3", 0, 5, "T1", some (-1)⟩] := by decide

/-- Value of a decimal digit character. -/
def digitVal (ch : Char) : Option Nat :=
  if ch.isDigit then some (ch.toNat - 48) else none

/-- Accumulates decimal digits; `none` as soon as a non-digit appears. -/
def parseDigits (cs : List Char) : Option Nat :=
  cs.foldl
    (fun acc ch =>
      match acc, digitVal ch with
      | some n, some d => some (n * 10 + d)
      | _, _ => none)
    (some 0)

/-- Python's `int(s)` on a string: an optional sign followed by at least one
decimal digit, else a `ValueError` (`none`). -/
def pyInt (s : String) : Option Int :=
  match s.toList with
  | [] => none
  | c :: cs =>
    if c = '-' then
      if cs = [] then none else (parseDigits cs).map (fun n => -(n : Int))
    else if c = '+' then
      if cs = [] then none else (parseDigits cs).map (fun n => (n : Int))
    else (parseDigits (c :: cs)).map (fun n => (n : Int))

example : pyInt "3" = some 3 := by decide
example : pyInt "100" = some 100 := by decide
example : pyInt "-2" = some (-2) := by decide
example : pyInt "bus" = none := by decide
example : pyInt "" = none := by decide

/-- Python's `s.split(" , ")` on the character list: scans left to right,
cutting at each (non-overlapping) occurrence of the three-character
delimiter. -/
def splitKeyChars : List Char → List (List Char)
  | [] => [[]]
  | ' ' :: ',' :: ' ' :: rest => [] :: splitKeyChars rest
  | c :: cs =>
    match splitKeyChars cs with
    | [] => [[c]]
    | g :: gs => (c :: g) :: gs

/-- `pair_id.split(" , ")`. -/
def splitKey (s : String) : List String :=
  (splitKeyChars s.toList).map (fun cs => String.mk cs)

example : splitKey "A , B , 3" = ["A", "B", "3"] := by decide
example : splitKey "A , B , C , 3" = ["A", "B", "C", "3"] := by decide

/-- `route_type_dict`: the eight known GTFS route-type codes. -/
def route_type_dict (route_type : Int) : Option String :=
  if route_type = 0 then some "Tram, Streetcar, Light rail"
  else if route_type = 1 then some "Subway, Metro"
  else if route_type = 2 then some "Rail"
  else if route_type = 3 then some "Bus"
  else if route_type = 4 then some "Ferry"
  else if route_type = 5 then some "Cable car"
  else if route_type = 6 then some "Gondola, Suspended cable car"
  else if route_type = 7 then some "Funicular"
  else none

/-- A dynamically typed SQL value: Python passes either an `int` or a `str`
to the `linefeatures` insert. -/
inductive SqlVal where
  | intVal : Int → SqlVal
  | strVal : String → SqlVal
deriving DecidableEq

/-- The fields written by the `cur4` update to one `TransitLines` row:
`route_type` (a `SHORT` column, `none` models NULL) and `route_type_text`. -/
structure LineRow where
  pair_id : String
  route_type : Option Int
  route_type_text : String
deriving DecidableEq

/-- Body of the `cur4` loop: parse `pair_id_list[2]` as an `int` (keeping the
raw string on `ValueError`), look the result up in `route_type_dict`, and
store the numeric code only when it is an `int`. -/
def updateLineRow (pair_id : String) : LineRow :=
  let pair_id_list := splitKey pair_id
  let raw := pair_id_list.getD 2 ""
  match pyInt raw with
  | some route_type =>
    let route_type_text :=
      match route_type_dict route_type with
      | some t => t
      | none => "Other / Type not specified (" ++ toString route_type ++ ")"
    ⟨pair_id, some route_type, route_type_text⟩
  | none =>
    let route_type_text := "Other / Type not specified (" ++ raw ++ ")"
    ⟨pair_id, none, route_type_text⟩

example : updateLineRow "A , B , 3" = ⟨"A , B , 3", some 3, "Bus"⟩ := by decide
example : updateLineRow "A , B , 100"
    = ⟨"A , B , 100", some 100, "Other / Type not specified (100)"⟩ := by decide
example : updateLineRow "A , B , bus"
    = ⟨"A , B , bus", none, "Other / Type not specified (bus)"⟩ := by decide

/-- `retrieve_linefeatures_info(in_key)`: the `linefeatures` row
`(SourceOID, from_stop, to_stop, route_type)`; on `ValueError` the route
type becomes the dummy string `"NULL"`. `SourceOID` is the ObjectID that
`linefeature_dict[in_key]` holds after the geometry step. -/
def retrieve_linefeatures_info (SourceOID : Int) (in_key : String) :
    Int × String × String × SqlVal :=
  let pair_id_list := splitKey in_key
  let from_stop := pair_id_list.getD 0 ""
  let to_stop := pair_id_list.getD 1 ""
  let route_type : SqlVal :=
    match pyInt (pair_id_list.getD 2 "") with
    | some n => SqlVal.intVal n
    | none => SqlVal.strVal "NULL"
  (SourceOID, from_stop, to_stop, route_type)

example : retrieve_linefeatures_info 7 "A , B , 3"
    = (7, "A", "B", SqlVal.intVal 3) := by decide
example : retrieve_linefeatures_info 7 "A , B , bus"
    = (7, "A", "B", SqlVal.strVal "NULL") := by decide

theorem Make_StopsTimes_Rows_loop_length (trip_id route_type : String) :
    ∀ (rest : List StopTimeRow) (p : String) (s : Int) (lfd : List String),
      (Make_StopsTimes_Rows_loop trip_id route_type p s rest lfd).1.length
        = rest.length := by
  intro rest
  induction rest with
  | nil => intro p s lfd; rfl
  | cons st tail ih =>
    intro p s lfd
    simp [Make_StopsTimes_Rows_loop, ih]

theorem Make_StopsTimes_Rows_loop_getD (trip_id route_type : String) :
    ∀ (rest : List StopTimeRow) (p : String) (s : Int) (lfd : List String)
      (i : Nat), i < rest.length →
      (((Make_StopsTimes_Rows_loop trip_id route_type p s rest lfd).1.getD i
          dummySchedule).start_time
          = if i = 0 then s
            else (rest.getD (i - 1) dummyStopTime).departure_time) ∧
      ((Make_StopsTimes_Rows_loop trip_id route_type p s rest lfd).1.getD i
          dummySchedule).end_time
          = (rest.getD i dummyStopTime).arrival_time ∧
      ((Make_StopsTimes_Rows_loop trip_id route_type p s rest lfd).1.getD i
          dummySchedule).trip_id = trip_id := by
  intro rest
  induction rest with
  | nil => intro p s lfd i hi; simp at hi
  | cons st tail ih =>
    intro p s lfd i hi
    match i with
    | 0 => simp [Make_StopsTimes_Rows_loop]
    | Nat.succ j =>
      have hj : j < tail.length := by simpa using hi
      have h3 := ih st.stop_id st.departure_time
        (registerKey lfd (makeSourceOIDkey p st.stop_id route_type)) j hj
      simp only [Make_StopsTimes_Rows_loop, List.getD_cons_succ] at *
      refine ⟨?_, h3.2.1, h3.2.2⟩
      rw [h3.1]
      cases j with
      | zero => simp
      | succ k => simp

/-- C1: for every trip with at least 2 stop visits and no frequency entries,
the static strategy emits exactly (visit count - 1) schedule rows; row i's
start is visit i's departure offset (the running start carried forward), its
end is visit (i+1)'s arrival offset, and the running start advances to
visit (i+1)'s departure offset (visible as row (i+1)'s start). -/
theorem static_strategy_spec (fdict : String → List FreqWindow)
    (tdict : String → String) (trip_id : String)
    (stop_times : List StopTimeRow) (lfd : List String)
    (hfreq : fdict trip_id = []) (h2 : 2 ≤ stop_times.length) :
    (Make_Rows_For_Trip fdict tdict trip_id stop_times lfd).1.length
        = stop_times.length - 1 ∧
    ∀ i, i + 1 < stop_times.length →
      ((Make_Rows_For_Trip fdict tdict trip_id stop_times lfd).1.getD i
          dummySchedule).start_time
        = (stop_times.getD i dummyStopTime).departure_time ∧
      ((Make_Rows_For_Trip fdict tdict trip_id stop_times lfd).1.getD i
          dummySchedule).end_time
        = (stop_times.getD (i + 1) dummyStopTime).arrival_time ∧
      ((Make_Rows_For_Trip fdict tdict trip_id stop_times lfd).1.getD i
          dummySchedule).trip_id = trip_id := by
  have hdisp : Make_Rows_For_Trip fdict tdict trip_id stop_times lfd
      = Make_StopsTimes_Rows tdict trip_id stop_times lfd := by
    simp [Make_Rows_For_Trip, hfreq]
  rw [hdisp]
  cases stop_times with
  | nil => simp at h2
  | cons first rest =>
    have hlt : ¬ (first :: rest).length < 2 := by omega
    simp only [Make_StopsTimes_Rows, hlt, if_false]
    constructor
    · rw [Make_StopsTimes_Rows_loop_length]
      simp
    · intro i hi
      have hi' : i < rest.length := by
        simpa using hi
      have h3 := Make_StopsTimes_Rows_loop_getD trip_id (tdict trip_id) rest
        first.stop_id first.departure_time lfd i hi'
      refine ⟨?_, ?_, h3.2.2⟩
      · rw [h3.1]
        cases i with
        | zero => simp
        | succ k => simp
      · rw [h3.2.1]
        simp

/-- Witness for C1 on the spec's scenario trip `T1` (stops A→B→C, departures
0/10, arrivals 5/15). -/
theorem static_strategy_spec_witness :
    (Make_Rows_For_Trip (fun _ => []) (fun _ => "3") "T1"
      [⟨"A", 0, 0⟩, ⟨"B", 5, 10⟩, ⟨"C", 15, 15⟩] []).1.length = 3 - 1 :=
  (static_strategy_spec (fun _ => []) (fun _ => "3") "T1"
    [⟨"A", 0, 0⟩, ⟨"B", 5, 10⟩, ⟨"C", 15, 15⟩] [] rfl (by decide)).1

theorem resolveSchedules_getD (lfd : List (String × Int))
    (rs : List ScheduleRecord) (i : Nat) (hi : i < rs.length) :
    (resolveSchedules lfd rs).getD i dummyRecord
      = resolveRecord lfd (rs.getD i dummyRecord) := by
  simp [resolveSchedules, List.getD_eq_getElem?_getD, List.getElem?_map,
    List.getElem?_eq_getElem, hi]

/-- C3: the resolver visits every schedule record, replaces its symbolic
edge key with the registry's numeric identifier when the key survives in
the Edge Registry, and writes the sentinel `-1` when the key is absent; no
other field changes and no record is skipped (the rewrite is total - it
cannot raise). -/
theorem resolver_lookup_or_sentinel (lfd : List (String × Int))
    (rs : List ScheduleRecord) :
    (resolveSchedules lfd rs).length = rs.length ∧
    ∀ i, i < rs.length →
      ((resolveSchedules lfd rs).getD i dummyRecord).SourceOIDKey
          = (rs.getD i dummyRecord).SourceOIDKey ∧
      ((resolveSchedules lfd rs).getD i dummyRecord).start_time
          = (rs.getD i dummyRecord).start_time ∧
      ((resolveSchedules lfd rs).getD i dummyRecord).end_time
          = (rs.getD i dummyRecord).end_time ∧
      ((resolveSchedules lfd rs).getD i dummyRecord).trip_id
          = (rs.getD i dummyRecord).trip_id ∧
      ((∃ n, lfd.lookup ((rs.getD i dummyRecord).SourceOIDKey) = some n ∧
          ((resolveSchedules lfd rs).getD i dummyRecord).SourceOID = some n) ∨
        (lfd.lookup ((rs.getD i dummyRecord).SourceOIDKey) = none ∧
          ((resolveSchedules lfd rs).getD i dummyRecord).SourceOID
            = some (-1))) := by
  refine ⟨by simp [resolveSchedules], ?_⟩
  intro i hi
  rw [resolveSchedules_getD lfd rs i hi]
  refine ⟨rfl, rfl, rfl, rfl, ?_⟩
  rcases hlook : lfd.lookup ((rs.getD i dummyRecord).SourceOIDKey) with _ | n
  · exact Or.inr ⟨rfl, by simp only [resolveRecord, getSourceOID]; rw [hlook]⟩
  · exact Or.inl ⟨n, rfl, by simp only [resolveRecord, getSourceOID]; rw [hlook]⟩

/-- C4: resolving a second time against an unchanged Edge Registry leaves
every record unchanged - the bulk rewrite is idempotent, because it reads
only the (unmodified) symbolic key column and overwrites only the
`SourceOID` column. -/
theorem resolveSchedules_idempotent (lfd : List (String × Int))
    (rs : List ScheduleRecord) :
    resolveSchedules lfd (resolveSchedules lfd rs) = resolveSchedules lfd rs := by
  unfold resolveSchedules
  rw [List.map_map]
  apply List.map_congr_left
  intro r _
  rfl

theorem freqFold_fst_indep_warnings (l : List FreqRow) :
    ∀ (d : String → List FreqWindow) (ws ws' : List String),
      (List.foldl freqStep (d, ws) l).1 = (List.foldl freqStep (d, ws') l).1 := by
  induction l with
  | nil => intro d ws ws'; rfl
  | cons fr l ih =>
    intro d ws ws'
    by_cases h0 : fr.headway_secs = 0
    · simp only [List.foldl_cons, freqStep, h0, if_pos]
      exact ih d _ _
    · simp only [List.foldl_cons, freqStep, h0, if_false]
      exact ih _ _ _

theorem freqFold_warnings_append (l : List FreqRow) :
    ∀ (d : String → List FreqWindow) (ws : List String),
      (List.foldl freqStep (d, ws) l).2
        = ws ++ (List.foldl freqStep (d, []) l).2 := by
  induction l with
  | nil => intro d ws; simp
  | cons fr l ih =>
    intro d ws
    by_cases h0 : fr.headway_secs = 0
    · simp only [List.foldl_cons, freqStep, h0, if_pos]
      rw [ih _ (ws ++ [zeroHeadwayWarning fr.trip_id]),
        ih _ ([] ++ [zeroHeadwayWarning fr.trip_id])]
      simp
    · simp only [List.foldl_cons, freqStep, h0, if_false]
      exact ih _ ws

/-- C9: a frequency record with headway 0 is discarded with a recorded
warning: the resulting `frequencies_dict` is exactly the one built without
that record (so the window contributes zero schedule rows), exactly one
warning is appended for it, and the remaining records are all still
processed (building the dictionary is a total function - no exception). -/
theorem zero_headway_window_discarded (pre post : List FreqRow) (fr : FreqRow)
    (h0 : fr.headway_secs = 0) :
    (∀ t, (buildFrequenciesDict (pre ++ fr :: post)).1 t
        = (buildFrequenciesDict (pre ++ post)).1 t) ∧
    zeroHeadwayWarning fr.trip_id ∈ (buildFrequenciesDict (pre ++ fr :: post)).2 ∧
    (buildFrequenciesDict (pre ++ fr :: post)).2.length
        = (buildFrequenciesDict (pre ++ post)).2.length + 1 := by
  unfold buildFrequenciesDict
  rw [List.foldl_append, List.foldl_append]
  set acc := List.foldl freqStep ((fun _ => []), []) pre with hacc
  have hstep : freqStep acc fr = (acc.1, acc.2 ++ [zeroHeadwayWarning fr.trip_id]) := by
    simp only [freqStep, h0, if_pos]
  rw [List.foldl_cons, hstep]
  refine ⟨?_, ?_, ?_⟩
  · intro t
    have h1 := freqFold_fst_indep_warnings post acc.1
      (acc.2 ++ [zeroHeadwayWarning fr.trip_id]) acc.2
    rw [h1]
  · rw [freqFold_warnings_append post acc.1 (acc.2 ++ [zeroHeadwayWarning fr.trip_id])]
    simp
  · rw [freqFold_warnings_append post acc.1 (acc.2 ++ [zeroHeadwayWarning fr.trip_id]),
      freqFold_warnings_append post acc.1 acc.2]
    simp
    omega

/-- Witness for C9 at a concrete zero-headway frequency record. -/
theorem zero_headway_window_discarded_witness :
    zeroHeadwayWarning "T" ∈ (buildFrequenciesDict [⟨"T", 0, 600, 0⟩]).2 :=
  (zero_headway_window_discarded [] [] ⟨"T", 0, 600, 0⟩ rfl).2.1

theorem freqFold_fst_all_zero (l : List FreqRow) :
    ∀ (d : String → List FreqWindow) (ws : List String) (t : String),
      (∀ fr ∈ l, fr.trip_id = t → fr.headway_secs = 0) →
      (List.foldl freqStep (d, ws) l).1 t = d t := by
  induction l with
  | nil => intro d ws t _; rfl
  | cons fr l ih =>
    intro d ws t hall
    by_cases h0 : fr.headway_secs = 0
    · simp only [List.foldl_cons, freqStep, h0, if_pos]
      exact ih d _ t (fun g hg => hall g (List.mem_cons_of_mem fr hg))
    · have hne : fr.trip_id ≠ t := fun he => h0 (hall fr (List.mem_cons_self fr l) he)
      simp only [List.foldl_cons, freqStep, h0, if_false]
      rw [ih _ _ t (fun g hg => hall g (List.mem_cons_of_mem fr hg))]
      simp [hne.symm]

theorem Make_StopsTimes_Rows_length (tdict : String → String) (trip_id : String)
    (stop_times : List StopTimeRow) (lfd : List String)
    (h2 : 2 ≤ stop_times.length) :
    (Make_StopsTimes_Rows tdict trip_id stop_times lfd).1.length
      = stop_times.length - 1 := by
  cases stop_times with
  | nil => simp at h2
  | cons first rest =>
    have hlt : ¬ (first :: rest).length < 2 := by omega
    simp only [Make_StopsTimes_Rows, hlt, if_false]
    rw [Make_StopsTimes_Rows_loop_length]
    simp

/-- C10: a trip all of whose frequency windows have headway 0 ends up absent
from `frequencies_dict` (all its records were discarded), so
`Make_Rows_For_Trip` expands it with the *static* strategy: one schedule row
per segment at its explicit absolute stop times - the trip is included in
the output despite the warning text promising it would not be. -/
theorem all_zero_headway_trip_is_static (freqs : List FreqRow) (trip_id : String)
    (tdict : String → String) (stop_times : List StopTimeRow) (lfd : List String)
    (hall : ∀ fr ∈ freqs, fr.trip_id = trip_id → fr.headway_secs = 0)
    (h2 : 2 ≤ stop_times.length) :
    (buildFrequenciesDict freqs).1 trip_id = [] ∧
    Make_Rows_For_Trip (buildFrequenciesDict freqs).1 tdict trip_id stop_times lfd
      = Make_StopsTimes_Rows tdict trip_id stop_times lfd ∧
    (Make_Rows_For_Trip (buildFrequenciesDict freqs).1 tdict trip_id stop_times
        lfd).1.length = stop_times.length - 1 := by
  have hdict : (buildFrequenciesDict freqs).1 trip_id = [] :=
    freqFold_fst_all_zero freqs (fun _ => []) [] trip_id hall
  have hdisp : Make_Rows_For_Trip (buildFrequenciesDict freqs).1 tdict trip_id
      stop_times lfd = Make_StopsTimes_Rows tdict trip_id stop_times lfd := by
    simp [Make_Rows_For_Trip, hdict]
  exact ⟨hdict, hdisp, by
    rw [hdisp]
    exact Make_StopsTimes_Rows_length tdict trip_id stop_times lfd h2⟩

/-- Witness for C10: trip `T` has only a zero-headway frequency record and
two stop visits, and is expanded statically into one schedule row. -/
theorem all_zero_headway_trip_is_static_witness :
    (Make_Rows_For_Trip (buildFrequenciesDict [⟨"T", 0, 3600, 0⟩]).1
      (fun _ => "3") "T" [⟨"A", 0, 0⟩, ⟨"B", 5, 5⟩] []).1.length
      = ([⟨"A", 0, 0⟩, ⟨"B", 5, 5⟩] : List StopTimeRow).length - 1 :=
  (all_zero_headway_trip_is_static [⟨"T", 0, 3600, 0⟩] "T" (fun _ => "3")
    [⟨"A", 0, 0⟩, ⟨"B", 5, 5⟩] [] (by decide) (by decide)).2.2

theorem tripDuplicates_eq_nil_iff (ids : List String) :
    tripDuplicates ids = [] ↔ ∀ t, ids.count t ≤ 1 := by
  unfold tripDuplicates
  rw [List.filterMap_eq_nil_iff]
  constructor
  · intro h t
    by_contra hc
    push_neg at hc
    have ht : t ∈ ids.dedup := List.mem_dedup.mpr (List.count_pos_iff.mp (by omega))
    have := h t ht
    rw [if_pos hc] at this
    exact Option.noConfusion this
  · intro h t _
    have := h t
    simp only [Nat.lt_iff_add_one_le]
    rw [if_neg]
    omega

theorem mem_tripDuplicates (ids : List String) (t : String) (n : Nat) :
    (t, n) ∈ tripDuplicates ids ↔ n = ids.count t ∧ 1 < n := by
  unfold tripDuplicates
  rw [List.mem_filterMap]
  constructor
  · rintro ⟨a, _, ha⟩
    by_cases hlt : 1 < ids.count a
    · rw [if_pos hlt] at ha
      cases ha
      exact ⟨rfl, hlt⟩
    · rw [if_neg hlt] at ha
      cases ha
  · rintro ⟨hn, hlt⟩
    subst hn
    refine ⟨t, List.mem_dedup.mpr (List.count_pos_iff.mp (by omega)), ?_⟩
    rw [if_pos hlt]

/-- C7: the run fails fatally if and only if some trip identifier occurs
more than once in the trip table; in that case the error carries every
offending identifier with its occurrence count, and (by construction of the
`Except`) no schedule rows, edge registrations or other outputs are
produced. -/
theorem duplicate_trip_id_aborts (routes trips : List (String × String))
    (freqs : List FreqRow) (stop_times : String → List StopTimeRow) :
    ((∃ t, 1 < (trips.map Prod.fst).count t) ↔
      ∃ e, runPipeline routes trips freqs stop_times = Except.error e) ∧
    ∀ e, runPipeline routes trips freqs stop_times = Except.error e →
      ∀ t, 1 < (trips.map Prod.fst).count t →
        (t, (trips.map Prod.fst).count t) ∈ e := by
  constructor
  · constructor
    · rintro ⟨t, ht⟩
      have hne : tripDuplicates (trips.map Prod.fst) ≠ [] := by
        rw [Ne, tripDuplicates_eq_nil_iff]
        push_neg
        exact ⟨t, ht⟩
      refine ⟨tripDuplicates (trips.map Prod.fst), ?_⟩
      simp only [runPipeline, if_neg hne]
    · rintro ⟨e, he⟩
      by_contra hno
      push_neg at hno
      have hnil : tripDuplicates (trips.map Prod.fst) = [] :=
        (tripDuplicates_eq_nil_iff _).mpr hno
      simp only [runPipeline, hnil, if_pos] at he
      exact Except.noConfusion he
  · intro e he t ht
    have hne : tripDuplicates (trips.map Prod.fst) ≠ [] := by
      rw [Ne, tripDuplicates_eq_nil_iff]
      push_neg
      exact ⟨t, ht⟩
    simp only [runPipeline, if_neg hne] at he
    cases he
    exact (mem_tripDuplicates _ t _).mpr ⟨rfl, ht⟩

theorem registerKey_nodup (lfd : List String) (k : String) (h : lfd.Nodup) :
    (registerKey lfd k).Nodup := by
  unfold registerKey
  split_ifs with hk
  · exact h
  · simp [List.nodup_append, h, hk]

theorem Make_StopsTimes_Rows_loop_nodup (trip_id route_type : String) :
    ∀ (rest : List StopTimeRow) (p : String) (s : Int) (lfd : List String),
      lfd.Nodup →
      ((Make_StopsTimes_Rows_loop trip_id route_type p s rest lfd).2).Nodup := by
  intro rest
  induction rest with
  | nil => intro p s lfd h; exact h
  | cons st tail ih =>
    intro p s lfd h
    exact ih st.stop_id st.departure_time _ (registerKey_nodup _ _ h)

theorem Make_Frequency_Rows_loop_nodup (trip_id route_type : String)
    (windows : List FreqWindow) (first : Int) :
    ∀ (rest : List StopTimeRow) (p : String) (s : Int) (lfd : List String),
      lfd.Nodup →
      ((Make_Frequency_Rows_loop trip_id route_type windows first p s rest
        lfd).2).Nodup := by
  intro rest
  induction rest with
  | nil => intro p s lfd h; exact h
  | cons st tail ih =>
    intro p s lfd h
    exact ih st.stop_id st.departure_time _ (registerKey_nodup _ _ h)

theorem Make_Rows_For_Trip_nodup (fdict : String → List FreqWindow)
    (tdict : String → String) (trip_id : String)
    (stop_time_data : List StopTimeRow) (lfd : List String) (h : lfd.Nodup) :
    ((Make_Rows_For_Trip fdict tdict trip_id stop_time_data lfd).2).Nodup := by
  unfold Make_Rows_For_Trip Make_Frequency_Rows Make_StopsTimes_Rows
  split_ifs with h1 h2 h3
  · exact h
  · cases stop_time_data with
    | nil => exact h
    | cons first rest => exact Make_Frequency_Rows_loop_nodup _ _ _ _ rest _ _ lfd h
  · exact h
  · cases stop_time_data with
    | nil => exact h
    | cons first rest => exact Make_StopsTimes_Rows_loop_nodup _ _ rest _ _ lfd h

theorem expandFold_nodup (fdict : String → List FreqWindow)
    (tdict : String → String) (stop_times : String → List StopTimeRow) :
    ∀ (trip_ids : List String) (acc : List ScheduleRow × List String),
      acc.2.Nodup →
      ((List.foldl (fun acc t =>
          let res := Make_Rows_For_Trip fdict tdict t (stop_times t) acc.2
          (acc.1 ++ res.1, res.2)) acc trip_ids).2).Nodup := by
  intro trip_ids
  induction trip_ids with
  | nil => intro acc h; exact h
  | cons t ts ih =>
    intro acc h
    exact ih _ (Make_Rows_For_Trip_nodup fdict tdict t (stop_times t) acc.2 h)

/-- C5 (amended): the Edge Registry holds exactly one entry per *key
string*: however many trips, segments or frequency ticks register the same
`"from , to , route_type"` key, the registry keeps a single entry for it.
(Identity is equality of the joined string, not of the tuple - see the
counterexample for two distinct tuples that collapse.) -/
theorem edge_registry_single_entry (routes trips : List (String × String))
    (freqs : List FreqRow) (stop_times : String → List StopTimeRow)
    (res : ExpansionResult)
    (hok : runPipeline routes trips freqs stop_times = Except.ok res) :
    ∀ k ∈ res.linefeature_keys, res.linefeature_keys.count k = 1 := by
  by_cases hnil : tripDuplicates (trips.map Prod.fst) = []
  · simp only [runPipeline, hnil, if_pos] at hok
    cases hok
    intro k hk
    refine List.count_eq_one_of_mem ?_ hk
    exact expandFold_nodup (buildFrequenciesDict freqs).1
      (trip_routetype_dict routes trips) stop_times (trips.map Prod.fst)
      ([], []) List.nodup_nil
  · simp only [runPipeline, hnil, if_neg, if_false] at hok
    exact Except.noConfusion hok

/-- Witness for C5 on a concrete run in which trips `T1` and `T2` share the
segment (A, B) with the same mode: the registry holds the key once. -/
theorem edge_registry_single_entry_witness :
    ("A , B , 3" : String) ∈ (["A , B , 3", "B , C , 3"] : List String) ∧
    (["A , B , 3", "B , C , 3"] : List String).count "A , B , 3" = 1 :=
  ⟨by decide, edge_registry_single_entry [("R", "3")] [("T1", "R"), ("T2", "R")]
    []
    (fun t => if t = "T1" then [⟨"A", 0, 0⟩, ⟨"B", 5, 10⟩, ⟨"C", 15, 15⟩]
      else if t = "T2" then [⟨"A", 100, 100⟩, ⟨"B", 105, 105⟩] else [])
    ⟨[⟨"A , B , 3", 0, 5, "T1"⟩, ⟨"B , C , 3", 10, 15, "T1"⟩,
      ⟨"A , B , 3", 100, 105, "T2"⟩], ["A , B , 3", "B , C , 3"], []⟩
    rfl "A , B , 3" (by decide)⟩

/-- Counterexample for C5 as stated: EdgeKey identity is *not* exact tuple
equality - the two distinct tuples ("A , B", "C", mode) and ("A", "B , C",
mode) produce the same composite key string and collapse into a single
registry entry. -/
theorem edge_registry_tuple_collision :
    (("A , B", "C", "3") ≠ (("A", "B , C", "3") : String × String × String)) ∧
    makeSourceOIDkey "A , B" "C" "3" = makeSourceOIDkey "A" "B , C" "3" ∧
    (registerKey (registerKey [] (makeSourceOIDkey "A , B" "C" "3"))
      (makeSourceOIDkey "A" "B , C" "3")).length = 1 := by
  refine ⟨by decide, rfl, by decide⟩

theorem mem_registerKey (lfd : List String) (k' k : String) :
    k ∈ registerKey lfd k' ↔ k ∈ lfd ∨ k = k' := by
  unfold registerKey
  split_ifs with h
  · constructor
    · exact Or.inl
    · rintro (h1 | rfl)
      · exact h1
      · exact h
  · simp [List.mem_append]

theorem freqFold_windows_from_rows (l : List FreqRow) :
    ∀ (d : String → List FreqWindow) (ws : List String) (t : String)
      (w : FreqWindow), w ∈ (List.foldl freqStep (d, ws) l).1 t →
      w ∈ d t ∨ ∃ fr ∈ l, fr.trip_id = t ∧ fr.headway_secs ≠ 0 ∧
        w = ⟨fr.start_time, fr.end_time, fr.headway_secs⟩ := by
  induction l with
  | nil => intro d ws t w hw; exact Or.inl hw
  | cons fr l ih =>
    intro d ws t w hw
    by_cases h0 : fr.headway_secs = 0
    · simp only [List.foldl_cons, freqStep, h0, if_pos] at hw
      rcases ih d _ t w hw with h | ⟨g, hg, hgt, hgh, hgw⟩
      · exact Or.inl h
      · exact Or.inr ⟨g, List.mem_cons_of_mem _ hg, hgt, hgh, hgw⟩
    · simp only [List.foldl_cons, freqStep, h0, if_false] at hw
      rcases ih _ _ t w hw with h | ⟨g, hg, hgt, hgh, hgw⟩
      · by_cases ht : t = fr.trip_id
        · rw [if_pos ht] at h
          rcases List.mem_append.mp h with h' | h'
          · exact Or.inl h'
          · simp only [List.mem_singleton] at h'
            exact Or.inr ⟨fr, List.mem_cons_self fr l, ht.symm, h0, h'⟩
        · rw [if_neg ht] at h
          exact Or.inl h
      · exact Or.inr ⟨g, List.mem_cons_of_mem _ hg, hgt, hgh, hgw⟩

theorem start_mem_pyRange (a b h : Int) (hh : 0 < h) (hab : a < b) :
    a ∈ pyRange a b h := by
  unfold pyRange pyRangeLen
  have h1 : 1 ≤ (b - a + h - 1) / h := by
    rw [Int.le_ediv_iff_mul_le hh]
    omega
  have h2 : 0 < ((b - a + h - 1) / h).toNat := by
    rw [Int.lt_toNat]
    exact lt_of_lt_of_le Int.one_pos h1
  simp only [List.mem_map, List.mem_range]
  exact ⟨0, h2, by simp⟩

theorem Make_StopsTimes_Rows_loop_keys (trip_id route_type : String) :
    ∀ (rest : List StopTimeRow) (p : String) (s : Int) (lfd : List String)
      (k : String),
      k ∈ (Make_StopsTimes_Rows_loop trip_id route_type p s rest lfd).2 →
      k ∈ lfd ∨
        ∃ r ∈ (Make_StopsTimes_Rows_loop trip_id route_type p s rest lfd).1,
          r.SourceOIDKey = k := by
  intro rest
  induction rest with
  | nil => intro p s lfd k hk; exact Or.inl hk
  | cons st tail ih =>
    intro p s lfd k hk
    rcases ih st.stop_id st.departure_time
        (registerKey lfd (makeSourceOIDkey p st.stop_id route_type)) k hk with
      h | ⟨r, hr, hrk⟩
    · rcases (mem_registerKey _ _ _).mp h with h' | rfl
      · exact Or.inl h'
      · refine Or.inr ⟨⟨makeSourceOIDkey p st.stop_id route_type, s,
          st.arrival_time, trip_id⟩, ?_, rfl⟩
        exact List.mem_cons_self _ _
    · exact Or.inr ⟨r, List.mem_cons_of_mem _ hr, hrk⟩

theorem Make_Frequency_Rows_loop_keys (trip_id route_type : String)
    (windows : List FreqWindow) (first : Int) (hwne : windows ≠ [])
    (hw : ∀ w ∈ windows, 0 < w.headway_secs ∧ w.start_time < w.end_time) :
    ∀ (rest : List StopTimeRow) (p : String) (s : Int) (lfd : List String)
      (k : String),
      k ∈ (Make_Frequency_Rows_loop trip_id route_type windows first p s rest
        lfd).2 →
      k ∈ lfd ∨
        ∃ r ∈ (Make_Frequency_Rows_loop trip_id route_type windows first p s
          rest lfd).1, r.SourceOIDKey = k := by
  intro rest
  induction rest with
  | nil => intro p s lfd k hk; exact Or.inl hk
  | cons st tail ih =>
    intro p s lfd k hk
    rcases ih st.stop_id st.departure_time
        (registerKey lfd (makeSourceOIDkey p st.stop_id route_type)) k hk with
      h | ⟨r, hr, hrk⟩
    · rcases (mem_registerKey _ _ _).mp h with h' | rfl
      · exact Or.inl h'
      · cases windows with
        | nil => exact absurd rfl hwne
        | cons w ws =>
          have hwhead := hw w (List.mem_cons_self w ws)
          have htick : w.start_time ∈
              pyRange w.start_time w.end_time w.headway_secs :=
            start_mem_pyRange _ _ _ hwhead.1 hwhead.2
          refine Or.inr ⟨⟨makeSourceOIDkey p st.stop_id route_type,
            w.start_time + (s - first),
            w.start_time + (st.arrival_time - first), trip_id⟩, ?_, rfl⟩
          refine List.mem_append.mpr (Or.inl ?_)
          refine List.mem_flatMap.mpr ⟨w, List.mem_cons_self w ws, ?_⟩
          exact List.mem_map.mpr ⟨w.start_time, htick, rfl⟩
    · refine Or.inr ⟨r, List.mem_append.mpr (Or.inr hr), hrk⟩

theorem Make_Rows_For_Trip_keys (fdict : String → List FreqWindow)
    (tdict : String → String) (trip_id : String)
    (stop_time_data : List StopTimeRow) (lfd : List String)
    (hw : ∀ w ∈ fdict trip_id, 0 < w.headway_secs ∧ w.start_time < w.end_time)
    (k : String)
    (hk : k ∈ (Make_Rows_For_Trip fdict tdict trip_id stop_time_data lfd).2) :
    k ∈ lfd ∨
      ∃ r ∈ (Make_Rows_For_Trip fdict tdict trip_id stop_time_data lfd).1,
        r.SourceOIDKey = k := by
  unfold Make_Rows_For_Trip Make_Frequency_Rows Make_StopsTimes_Rows at hk ⊢
  split_ifs at hk ⊢ with h1 h2 h3
  · exact Or.inl hk
  · cases stop_time_data with
    | nil => exact Or.inl hk
    | cons first rest =>
      exact Make_Frequency_Rows_loop_keys trip_id (tdict trip_id)
        (fdict trip_id) first.departure_time h1 hw rest first.stop_id
        first.departure_time lfd k hk
  · exact Or.inl hk
  · cases stop_time_data with
    | nil => exact Or.inl hk
    | cons first rest =>
      exact Make_StopsTimes_Rows_loop_keys trip_id (tdict trip_id) rest
        first.stop_id first.departure_time lfd k hk

theorem expandFold_keys (fdict : String → List FreqWindow)
    (tdict : String → String) (stop_times : String → List StopTimeRow)
    (hw : ∀ t, ∀ w ∈ fdict t, 0 < w.headway_secs ∧ w.start_time < w.end_time) :
    ∀ (trip_ids : List String) (acc : List ScheduleRow × List String),
      (∀ k ∈ acc.2, ∃ r ∈ acc.1, r.SourceOIDKey = k) →
      ∀ k ∈ (List.foldl (fun acc t =>
          let res := Make_Rows_For_Trip fdict tdict t (stop_times t) acc.2
          (acc.1 ++ res.1, res.2)) acc trip_ids).2,
        ∃ r ∈ (List.foldl (fun acc t =>
          let res := Make_Rows_For_Trip fdict tdict t (stop_times t) acc.2
          (acc.1 ++ res.1, res.2)) acc trip_ids).1, r.SourceOIDKey = k := by
  intro trip_ids
  induction trip_ids with
  | nil => intro acc hinv k hk; exact hinv k hk
  | cons t ts ih =>
    intro acc hinv k hk
    refine ih _ ?_ k hk
    intro k' hk'
    rcases Make_Rows_For_Trip_keys fdict tdict t (stop_times t) acc.2
        (hw t) k' hk' with h | ⟨r, hr, hrk⟩
    · rcases hinv k' h with ⟨r, hr, hrk⟩
      exact ⟨r, List.mem_append.mpr (Or.inl hr), hrk⟩
    · exact ⟨r, List.mem_append.mpr (Or.inr hr), hrk⟩

/-- C6 (amended): after the expansion phase every EdgeKey present in the
Edge Registry has contributed at least one schedule row, *provided* every
(non-discarded) frequency record defines a nonempty tick range (positive
headway and start < end).  A frequency trip all of whose windows are empty
ranges registers its segment keys while emitting no rows - see the
counterexample. -/
theorem registry_keys_have_records (routes trips : List (String × String))
    (freqs : List FreqRow) (stop_times : String → List StopTimeRow)
    (res : ExpansionResult)
    (hwin : ∀ fr ∈ freqs, fr.headway_secs ≠ 0 →
      0 < fr.headway_secs ∧ fr.start_time < fr.end_time)
    (hok : runPipeline routes trips freqs stop_times = Except.ok res) :
    ∀ k ∈ res.linefeature_keys, ∃ r ∈ res.schedules, r.SourceOIDKey = k := by
  by_cases hnil : tripDuplicates (trips.map Prod.fst) = []
  · simp only [runPipeline, hnil, if_pos] at hok
    cases hok
    intro k hk
    refine expandFold_keys (buildFrequenciesDict freqs).1
      (trip_routetype_dict routes trips) stop_times ?_ (trips.map Prod.fst)
      ([], []) (by intro k' hk'; exact absurd hk' (List.not_mem_nil k')) k hk
    intro t w hw
    rcases freqFold_windows_from_rows freqs (fun _ => []) [] t w hw with
      h | ⟨fr, hfr, _, hfh, hfw⟩
    · exact absurd h (List.not_mem_nil w)
    · rcases hwin fr hfr hfh with ⟨hpos, hlt⟩
      rw [hfw]
      exact ⟨hpos, hlt⟩
  · simp only [runPipeline, hnil, if_neg, if_false] at hok
    exact Except.noConfusion hok

/-- Witness for C6 on a concrete run with one frequency trip (window 0-1200,
headway 600): the single registered key has schedule rows. -/
theorem registry_keys_have_records_witness :
    ∃ r ∈ ([⟨"A , B , 3", 0, 5, "T"⟩, ⟨"A , B , 3", 600, 605, "T"⟩] :
      List ScheduleRow), r.SourceOIDKey = "A , B , 3" :=
  registry_keys_have_records [("R", "3")] [("T", "R")] [⟨"T", 0, 1200, 600⟩]
    (fun t => if t = "T" then [⟨"A", 0, 0⟩, ⟨"B", 5, 5⟩] else [])
    ⟨[⟨"A , B , 3", 0, 5, "T"⟩, ⟨"A , B , 3", 600, 605, "T"⟩],
      ["A , B , 3"], []⟩
    (by decide) rfl "A , B , 3" (by decide)

/-- Counterexample for C6 as stated: the frequency trip `T` has one window
whose tick range is empty (start = end = 100), so its segment key is
registered in the Edge Registry while zero schedule rows are produced. -/
theorem registry_key_without_record :
    runPipeline [("R", "3")] [("T", "R")] [⟨"T", 100, 100, 60⟩]
      (fun t => if t = "T" then [⟨"A", 0, 0⟩, ⟨"B", 5, 5⟩] else [])
      = Except.ok ⟨[], ["A , B , 3"], []⟩ ∧
    ¬ ∃ r ∈ ([] : List ScheduleRow), r.SourceOIDKey = "A , B , 3" :=
  ⟨rfl, by simp⟩

/-- The schedule rows one segment contributes across the frequency windows
of its trip: for every window, one row per tick of `range(start, end,
headway)`, shifted by the segment's relative offsets (the inner two loops of
`Make_Frequency_Rows`). -/
def freqSegmentRows (trip_id key : String) (windows : List FreqWindow)
    (relStart relEnd : Int) : List ScheduleRow :=
  windows.flatMap (fun w =>
    (pyRange w.start_time w.end_time w.headway_secs).map (fun i =>
      ⟨key, i + relStart, i + relEnd, trip_id⟩))

theorem Make_Frequency_Rows_loop_rows (trip_id route_type : String)
    (windows : List FreqWindow) (first : Int) :
    ∀ (rest : List StopTimeRow) (p : String) (s : Int) (lfd : List String),
      (Make_Frequency_Rows_loop trip_id route_type windows first p s rest
        lfd).1
        = (((⟨p, 0, s⟩ : StopTimeRow) :: rest).zip rest).flatMap (fun ab =>
            freqSegmentRows trip_id
              (makeSourceOIDkey ab.1.stop_id ab.2.stop_id route_type) windows
              (ab.1.departure_time - first) (ab.2.arrival_time - first)) := by
  intro rest
  induction rest with
  | nil => intro p s lfd; rfl
  | cons st tail ih =>
    intro p s lfd
    simp only [Make_Frequency_Rows_loop]
    rw [ih st.stop_id st.departure_time
      (registerKey lfd (makeSourceOIDkey p st.stop_id route_type))]
    cases tail with
    | nil => rfl
    | cons y ys => rfl

theorem mem_pyRange (a b h : Int) (hh : 0 < h) (i : Int) :
    i ∈ pyRange a b h ↔ a ≤ i ∧ i < b ∧ (h ∣ i - a) := by
  unfold pyRange pyRangeLen
  simp only [List.mem_map, List.mem_range]
  constructor
  · rintro ⟨k, hk, rfl⟩
    have hk' : (k : Int) < (b - a + h - 1) / h := Int.lt_toNat.mp hk
    have hk2 : ((k : Int) + 1) * h ≤ b - a + h - 1 :=
      (Int.le_ediv_iff_mul_le hh).mp hk'
    have hk0 : (0 : Int) ≤ h * (k : Int) :=
      mul_nonneg hh.le (Int.natCast_nonneg k)
    refine ⟨by linarith, by linarith, ⟨(k : Int), by ring⟩⟩
  · rintro ⟨hai, hib, j, hj⟩
    have hj0 : 0 ≤ j := by
      by_contra hneg
      push_neg at hneg
      have := mul_neg_of_pos_of_neg hh hneg
      linarith
    refine ⟨j.toNat, ?_, ?_⟩
    · rw [Int.lt_toNat, Int.toNat_of_nonneg hj0]
      have : (j + 1) * h ≤ b - a + h - 1 := by linarith
      have := (Int.le_ediv_iff_mul_le hh).mpr this
      linarith
    · rw [Int.toNat_of_nonneg hj0]
      linarith

theorem ediv_ceil_neg (x h : Int) (hh : 0 < h) :
    (x + h - 1) / h = -((-x) / h) := by
  have h0 : h ≠ 0 := ne_of_gt hh
  have hq := Int.ediv_add_emod (-x) h
  have hr0 : 0 ≤ (-x) % h := Int.emod_nonneg _ h0
  have hrh : (-x) % h < h := Int.emod_lt_of_pos _ hh
  have hx : x + h - 1 = (h - 1 - (-x) % h) + h * (-((-x) / h)) := by
    linarith
  rw [hx, Int.add_mul_ediv_left _ _ h0,
    Int.ediv_eq_zero_of_lt (by linarith) (by linarith)]
  simp

theorem pyRange_length_ceil (a b h : Int) (hh : 0 < h) :
    ((pyRange a b h).length : Int) = max (-((a - b) / h)) 0 := by
  unfold pyRange pyRangeLen
  rw [List.length_map, List.length_range, Int.toNat_eq_max,
    ediv_ceil_neg (b - a) h hh, neg_sub b a]

/-- C2 (amended): for a frequency trip the emitted rows are exactly, for
every consecutive segment and every FrequencyWindow, one row per integer
tick `i` stepping from the window start (inclusive) to the window end
(exclusive) in headway increments, at `start = i + relStart`, `end = i +
relEnd`; the number of ticks (hence of rows per segment per window) is the
*ceiling* ⌈(end-start)/headway⌉ (clamped at 0), not the floor. -/
theorem frequency_strategy_spec (tdict : String → String) (trip_id : String)
    (windows : List FreqWindow) (stop_times : List StopTimeRow)
    (lfd : List String) (h2 : 2 ≤ stop_times.length) :
    (Make_Frequency_Rows tdict trip_id windows stop_times lfd).1
      = (stop_times.zip stop_times.tail).flatMap (fun ab =>
          freqSegmentRows trip_id
            (makeSourceOIDkey ab.1.stop_id ab.2.stop_id (tdict trip_id))
            windows
            (ab.1.departure_time
              - (stop_times.getD 0 dummyStopTime).departure_time)
            (ab.2.arrival_time
              - (stop_times.getD 0 dummyStopTime).departure_time)) ∧
    (∀ w : FreqWindow, 0 < w.headway_secs →
      (∀ i : Int, i ∈ pyRange w.start_time w.end_time w.headway_secs ↔
        w.start_time ≤ i ∧ i < w.end_time ∧
          (w.headway_secs ∣ i - w.start_time)) ∧
      (∀ key relStart relEnd,
        (freqSegmentRows trip_id key [w] relStart relEnd).length
          = (pyRange w.start_time w.end_time w.headway_secs).length) ∧
      ((pyRange w.start_time w.end_time w.headway_secs).length : Int)
        = max (-((w.start_time - w.end_time) / w.headway_secs)) 0) := by
  constructor
  · cases stop_times with
    | nil => simp at h2
    | cons first rest =>
      have hlt : ¬ (first :: rest).length < 2 := by
        simp only [List.length_cons] at h2 ⊢
        omega
      simp only [Make_Frequency_Rows, hlt, if_false]
      rw [Make_Frequency_Rows_loop_rows trip_id (tdict trip_id) windows
        first.departure_time rest first.stop_id first.departure_time lfd]
      cases rest with
      | nil => rfl
      | cons y ys => rfl
  · intro w hw
    exact ⟨mem_pyRange w.start_time w.end_time w.headway_secs hw,
      fun key relStart relEnd => by simp [freqSegmentRows],
      pyRange_length_ceil w.start_time w.end_time w.headway_secs hw⟩

/-- Witness for C2 on the spec's scenario window (start 0, end 1200, headway
600): two ticks, matching the ceiling formula. -/
theorem frequency_strategy_spec_witness :
    ((pyRange 0 1200 600).length : Int) = max (-(((0 : Int) - 1200) / 600)) 0 :=
  ((frequency_strategy_spec (fun _ => "3") "T2" [⟨0, 1200, 600⟩]
    [⟨"A", 0, 0⟩, ⟨"B", 5, 5⟩] [] (by decide)).2 ⟨0, 1200, 600⟩
    (by decide)).2.2

/-- Counterexample for C2 as stated: the window (0, 700, headway 600) over
the single segment A-B produces ticks {0, 600}, i.e. 2 records, while
⌊(700-0)/600⌋ = 1 - the per-window record count is the ceiling, not the
floor. -/
theorem frequency_count_not_floor :
    ((Make_Frequency_Rows (fun _ => "3") "T2" [⟨0, 700, 600⟩]
      [⟨"A", 0, 0⟩, ⟨"B", 5, 5⟩] []).1.length : Int)
      ≠ ((700 : Int) - 0) / 600 := by decide

/-- C8 (amended): for an edge key `"f , t , m"` whose components are
delimiter-free (`split` recovers them), the mode is carried as an integer
exactly when the raw value parses as *any* integer (not only the eight
known GTFS codes); when it does not parse, the line record's numeric mode
column is NULL with the raw string preserved only inside the descriptive
text, and the edge-candidate (`linefeatures`) row carries the placeholder
string "NULL" instead of the raw value. -/
theorem mode_propagation_spec (f t m : String) (oid : Int)
    (hsplit : splitKey (makeSourceOIDkey f t m) = [f, t, m]) :
    ((updateLineRow (makeSourceOIDkey f t m)).route_type = pyInt m) ∧
    (pyInt m = none →
      (updateLineRow (makeSourceOIDkey f t m)).route_type_text
        = "Other / Type not specified (" ++ m ++ ")") ∧
    (retrieve_linefeatures_info oid (makeSourceOIDkey f t m)
      = (oid, f, t,
          match pyInt m with
          | some n => SqlVal.intVal n
          | none => SqlVal.strVal "NULL")) := by
  unfold updateLineRow retrieve_linefeatures_info
  rw [hsplit]
  refine ⟨?_, ?_, ?_⟩
  · rcases hpi : pyInt m with _ | n <;> simp [List.getD, hpi]
  · intro hpi
    simp [List.getD, hpi]
  · rcases hpi : pyInt m with _ | n <;> simp [List.getD, hpi]

/-- Witness for C8 at the key "A , B , bus": the raw mode does not parse, so
the line row keeps NULL + text and the linefeatures row gets "NULL". -/
theorem mode_propagation_spec_witness :
    ((updateLineRow (makeSourceOIDkey "A" "B" "bus")).route_type
        = pyInt "bus") ∧
    (pyInt "bus" = none →
      (updateLineRow (makeSourceOIDkey "A" "B" "bus")).route_type_text
        = "Other / Type not specified (" ++ "bus" ++ ")") ∧
    (retrieve_linefeatures_info 7 (makeSourceOIDkey "A" "B" "bus")
      = (7, "A", "B",
          match pyInt "bus" with
          | some n => SqlVal.intVal n
          | none => SqlVal.strVal "NULL")) :=
  mode_propagation_spec "A" "B" "bus" 7 (by decide)

/-- Counterexample for C8 as stated: the raw mode "100" is not one of the
known GTFS route-type codes yet is carried as the integer 100, and the raw
mode "bus" is not preserved in the edge-candidate row - it is replaced by
the placeholder "NULL". -/
theorem mode_known_codes_not_required :
    ((updateLineRow (makeSourceOIDkey "A" "B" "100")).route_type = some 100 ∧
      route_type_dict 100 = none) ∧
    (retrieve_linefeatures_info 7 (makeSourceOIDkey "A" "B" "bus")
      = (7, "A", "B", SqlVal.strVal "NULL") ∧ ("bus" : String) ≠ "NULL") := by
  decide
